import Mathlib

/-!
# Verification of the agent invocation pipeline core

Shallow embedding of the repository's sensitive-data tokenizer
(`adk_explore_callback/callback_exploration_sensitive_data.py`), the response
cache (`adk_explore_callback/callback_plugin_agent_full_demo.py`), and the
session-state persistence wrapper
(`Adk_Copilotkit_UI_App/backend/session_persistence_wrapper.py`), together
with proofs of the specified properties.

Machine integers are modelled as `Nat` with explicit reduction modulo `2^32`
where the source relies on 32-bit overflow (inside SHA-256).
-/

namespace Agents

set_option maxRecDepth 100000

/-! ## SHA-256 (the source's `hashlib.sha256(...).hexdigest()`) -/

/-- `2^32`, the word modulus of SHA-256. -/
def w32 : Nat := 4294967296

/-- Right rotation of a 32-bit word. -/
def rotr32 (n x : Nat) : Nat := ((x >>> n) ||| (x <<< (32 - n))) % w32

/-- Bitwise complement of a 32-bit word. -/
def not32 (x : Nat) : Nat := 4294967295 - x

def bigSigma0 (x : Nat) : Nat := rotr32 2 x ^^^ rotr32 13 x ^^^ rotr32 22 x
def bigSigma1 (x : Nat) : Nat := rotr32 6 x ^^^ rotr32 11 x ^^^ rotr32 25 x
def smallSigma0 (x : Nat) : Nat := rotr32 7 x ^^^ rotr32 18 x ^^^ (x >>> 3)
def smallSigma1 (x : Nat) : Nat := rotr32 17 x ^^^ rotr32 19 x ^^^ (x >>> 10)

/-- The 64 SHA-256 round constants (decimal). -/
def sha256K : List Nat :=
  [1116352408, 1899447441, 3049323471, 3921009573, 961987163, 1508970993,
   2453635748, 2870763221, 3624381080, 310598401, 607225278, 1426881987,
   1925078388, 2162078206, 2614888103, 3248222580, 3835390401, 4022224774,
   264347078, 604807628, 770255983, 1249150122, 1555081692, 1996064986,
   2554220882, 2821834349, 2952996808, 3210313671, 3336571891, 3584528711,
   113926993, 338241895, 666307205, 773529912, 1294757372, 1396182291,
   1695183700, 1986661051, 2177026350, 2456956037, 2730485921, 2820302411,
   3259730800, 3345764771, 3516065817, 3600352804, 4094571909, 275423344,
   430227734, 506948616, 659060556, 883997877, 958139571, 1322822218,
   1537002063, 1747873779, 1955562222, 2024104815, 2227730452, 2361852424,
   2428436474, 2756734187, 3204031479, 3329325298]

/-- The SHA-256 initial hash value (decimal). -/
def sha256H0 : List Nat :=
  [1779033703, 3144134277, 1013904242, 2773480762,
   1359893119, 2600822924, 528734635, 1541459225]

/-- Next word of the message schedule from the previous 16 words
(oldest first). -/
def scheduleStep (ws : List Nat) : Nat :=
  (smallSigma1 (ws.getD 14 0) + ws.getD 9 0 +
   smallSigma0 (ws.getD 1 0) + ws.getD 0 0) % w32

/-- Extend the message schedule by `n` further words, sliding a 16-word
window. -/
def scheduleExt : Nat → List Nat → List Nat
  | 0, _ => []
  | n + 1, window =>
    let nw := scheduleStep window
    nw :: scheduleExt n (window.drop 1 ++ [nw])

/-- One SHA-256 compression round on the state `[a,b,c,d,e,f,g,h]` with
round constant plus schedule word `kw`. -/
def sha256Round (st : List Nat) (kw : Nat) : List Nat :=
  match st with
  | [a, b, c, d, e, f, g, h] =>
    let ch := (e &&& f) ^^^ (not32 e &&& g)
    let maj := (a &&& b) ^^^ (a &&& c) ^^^ (b &&& c)
    let t1 := (h + bigSigma1 e + ch + kw) % w32
    let t2 := (bigSigma0 a + maj) % w32
    [(t1 + t2) % w32, a, b, c, (d + t1) % w32, e, f, g]
  | st => st

/-- SHA-256 compression of one 16-word block into the running hash. -/
def sha256Compress (h : List Nat) (block : List Nat) : List Nat :=
  let words := block ++ scheduleExt 48 block
  let kws := List.zipWith (fun k w => (k + w) % w32) sha256K words
  let st := kws.foldl sha256Round h
  List.zipWith (fun x y => (x + y) % w32) h st

/-- Big-endian byte expansion of `n` into `len` bytes. -/
def natToBytesBE : Nat → Nat → List Nat
  | _, 0 => []
  | n, k + 1 => natToBytesBE (n / 256) k ++ [n % 256]

/-- Group bytes into big-endian 32-bit words. -/
def bytesToWordsBE : List Nat → List Nat
  | b0 :: b1 :: b2 :: b3 :: rest =>
    (((b0 * 256 + b1) * 256 + b2) * 256 + b3) :: bytesToWordsBE rest
  | _ => []

/-- SHA-256 padding: append `0x80`, zeros, and the 64-bit big-endian bit
length, to a multiple of 64 bytes. -/
def sha256Pad (msg : List Nat) : List Nat :=
  let len := msg.length
  let z := (64 - (len + 9) % 64) % 64
  msg ++ 0x80 :: List.replicate z 0 ++ natToBytesBE (8 * len) 8

/-- Split a word list into 16-word blocks (fuel-driven so that it reduces
definitionally; the fuel is the list length). -/
def chunks16Aux : Nat → List Nat → List (List Nat)
  | 0, _ => []
  | _, [] => []
  | fuel + 1, w :: ws => (w :: ws.take 15) :: chunks16Aux fuel (ws.drop 15)

/-- Split a word list into 16-word blocks. -/
def chunks16 (l : List Nat) : List (List Nat) := chunks16Aux l.length l

/-- SHA-256 digest (32 bytes) of a byte sequence. -/
def sha256Bytes (msg : List Nat) : List Nat :=
  let blocks := chunks16 (bytesToWordsBE (sha256Pad msg))
  let hFinal := blocks.foldl sha256Compress sha256H0
  (hFinal.map (fun wd => natToBytesBE wd 4)).flatten

/-- Lower-case hex character for a value below 16. -/
def hexChar (n : Nat) : Char :=
  if n < 10 then Char.ofNat (48 + n) else Char.ofNat (87 + n)

/-- Two lower-case hex characters of one byte. -/
def byteToHex (b : Nat) : List Char := [hexChar (b / 16), hexChar (b % 16)]

/-- UTF-8 encoding of one character (Python's `str.encode()`). -/
def utf8EncodeChar (c : Char) : List Nat :=
  let n := c.toNat
  if n < 0x80 then [n]
  else if n < 0x800 then [0xc0 + n / 64, 0x80 + n % 64]
  else if n < 0x10000 then
    [0xe0 + n / 4096, 0x80 + (n / 64) % 64, 0x80 + n % 64]
  else
    [0xf0 + n / 262144, 0x80 + (n / 4096) % 64, 0x80 + (n / 64) % 64,
     0x80 + n % 64]

/-- UTF-8 bytes of a string (Python's `str.encode()`). -/
def utf8Bytes (s : String) : List Nat := (s.data.map utf8EncodeChar).flatten

/-- `hashlib.sha256(s.encode()).hexdigest()`. -/
def sha256hex (s : String) : String :=
  String.mk ((sha256Bytes (utf8Bytes s)).map byteToHex).flatten

/-! ## Character classes and string primitives (Python `re` / `str`) -/

/-- Python `\d` on the ASCII inputs at hand. -/
def isDigitChar (c : Char) : Bool := '0' ≤ c && c ≤ '9'

/-- Python `\s` (ASCII range): space, tab, newline, carriage return,
vertical tab, form feed. -/
def isPySpace (c : Char) : Bool :=
  c = ' ' || c = '\t' || c = '\n' || c = '\r' ||
  c = Char.ofNat 11 || c = Char.ofNat 12

/-- The separator class `[\s\-]` of `PCI_PATTERN`. -/
def isSepChar (c : Char) : Bool := isPySpace c || c = '-'

/-- Python `\w` (ASCII range), used for the `\b` word boundary. -/
def isWordChar (c : Char) : Bool :=
  isDigitChar c || ('a' ≤ c && c ≤ 'z') || ('A' ≤ c && c ≤ 'Z') || c = '_'

/-- A `\b` boundary holds before a digit iff the preceding character (none
at the start of the text) is not a word character. -/
def wordBoundaryBefore : Option Char → Bool
  | none => true
  | some c => !isWordChar c

/-- A `\b` boundary holds after a digit iff the next character (none at the
end of the text) is not a word character. -/
def boundaryAfter : List Char → Bool
  | [] => true
  | c :: _ => !isWordChar c

/-- Take exactly `n` characters satisfying `p`, returning them and the
rest. -/
def takeExact (p : Char → Bool) : Nat → List Char → Option (List Char × List Char)
  | 0, cs => some ([], cs)
  | _ + 1, [] => none
  | n + 1, c :: cs =>
    if p c then
      match takeExact p n cs with
      | some (ds, rest) => some (c :: ds, rest)
      | none => none
    else none

/-- Strip a literal character prefix, returning the remainder on success. -/
def stripChars : List Char → List Char → Option (List Char)
  | [], cs => some cs
  | _ :: _, [] => none
  | p :: ps, c :: cs => if c = p then stripChars ps cs else none

/-- Python `s.replace(old, new, 1)`: replace the first occurrence of `old`
(fuel-driven so that it reduces definitionally). -/
def replaceFirstAux : Nat → List Char → List Char → List Char → List Char
  | 0, s, _, _ => s
  | fuel + 1, s, old, new =>
    match stripChars old s with
    | some rest => new ++ rest
    | none =>
      match s with
      | [] => []
      | c :: cs => c :: replaceFirstAux fuel cs old new

/-- Python `s.replace(old, new, 1)`. -/
def replaceFirst (s old new : List Char) : List Char :=
  replaceFirstAux (s.length + 1) s old new

/-- Substring occurrence test (`lit in s`), fuel-driven. -/
def containsSubAux : Nat → List Char → List Char → Bool
  | 0, s, sub => (stripChars sub s).isSome
  | fuel + 1, s, sub =>
    (stripChars sub s).isSome ||
      match s with
      | [] => false
      | _ :: cs => containsSubAux fuel cs sub

/-- Substring occurrence test (`lit in s`). -/
def containsSubstr (s sub : String) : Bool :=
  containsSubAux s.data.length s.data sub.data

/-! ## The tokenizer's regular expressions
(`callback_exploration_sensitive_data.py`)

`NPI_PATTERN = \b(\d{10})\b` and
`PCI_PATTERN = \b(\d{4}[\s\-]?\d{4}[\s\-]?\d{4}[\s\-]?\d{4}(?:[\s\-]?\d{1,4})?)\b`
are embedded as explicit scanners with Python's leftmost, greedy,
backtracking `finditer` semantics. -/

/-- `NPI_PATTERN.finditer`: leftmost non-overlapping matches of
`\b\d{10}\b` (fuel = text length). -/
def npiFindAux : Nat → Option Char → List Char → List (List Char)
  | 0, _, _ => []
  | _, _, [] => []
  | fuel + 1, prev, c :: cs =>
    if wordBoundaryBefore prev then
      match takeExact isDigitChar 10 (c :: cs) with
      | some (m, rest) =>
        if boundaryAfter rest then m :: npiFindAux fuel (some (m.getLastD c)) rest
        else npiFindAux fuel (some c) cs
      | none => npiFindAux fuel (some c) cs
    else npiFindAux fuel (some c) cs

/-- `NPI_PATTERN.finditer` over a text. -/
def npiFindIter (cs : List Char) : List (List Char) :=
  npiFindAux cs.length none cs

/-- Regex alternation on attempt results: the first (greedier) alternative
wins; the second is the backtrack. -/
def orElseO {α : Type} (a b : Option α) : Option α :=
  match a with
  | some x => some x
  | none => b

/-- `\d{1,4}` (greedy, 4 down to 1) followed by the trailing `\b`. -/
def pciTailDigits (n : Nat) (acc rest : List Char) : Option (List Char × List Char) :=
  match takeExact isDigitChar n rest with
  | some (ds, rest') =>
    if boundaryAfter rest' then some (acc ++ ds, rest') else none
  | none => none

/-- Consume one separator character `[\s\-]`, then continue with `k`. -/
def sepBranch (k : List Char → List Char → Option (List Char × List Char))
    (acc rest : List Char) : Option (List Char × List Char) :=
  match rest with
  | c :: rest' => if isSepChar c then k (acc ++ [c]) rest' else none
  | [] => none

/-- The greedy `\d{1,4}` (4 first, down to 1) followed by the trailing
`\b`. -/
def pciTailChain (acc rest : List Char) : Option (List Char × List Char) :=
  orElseO (pciTailDigits 4 acc rest)
    (orElseO (pciTailDigits 3 acc rest)
      (orElseO (pciTailDigits 2 acc rest) (pciTailDigits 1 acc rest)))

/-- The optional tail `(?:[\s\-]?\d{1,4})?` of `PCI_PATTERN`, then `\b`,
with the regex engine's greedy backtracking order: inner separator present
first, then separator absent, then the whole group absent. -/
def pciTail (acc rest : List Char) : Option (List Char × List Char) :=
  orElseO (sepBranch pciTailChain acc rest)
    (orElseO (pciTailChain acc rest)
      (if boundaryAfter rest then some (acc, rest) else none))

/-- An optional single separator `[\s\-]?` (greedy: present first), then
continue with `k`; backtracks into `k`. -/
def pciSepThen (k : List Char → List Char → Option (List Char × List Char))
    (acc rest : List Char) : Option (List Char × List Char) :=
  orElseO (sepBranch k acc rest) (k acc rest)

/-- The last mandatory group `\d{4}` of `PCI_PATTERN`, then the tail. -/
def pciG4 (acc rest : List Char) : Option (List Char × List Char) :=
  match takeExact isDigitChar 4 rest with
  | some (ds, rest') => pciTail (acc ++ ds) rest'
  | none => none

/-- Third mandatory group `\d{4}`, then `[\s\-]?`, then the fourth. -/
def pciG3 (acc rest : List Char) : Option (List Char × List Char) :=
  match takeExact isDigitChar 4 rest with
  | some (ds, rest') => pciSepThen pciG4 (acc ++ ds) rest'
  | none => none

/-- Second mandatory group `\d{4}`, then `[\s\-]?`, then the third. -/
def pciG2 (acc rest : List Char) : Option (List Char × List Char) :=
  match takeExact isDigitChar 4 rest with
  | some (ds, rest') => pciSepThen pciG3 (acc ++ ds) rest'
  | none => none

/-- Try to match `PCI_PATTERN` (minus the leading `\b`) at the start of the
text, returning the matched characters and the remainder. -/
def pciMatchAt (cs : List Char) : Option (List Char × List Char) :=
  match takeExact isDigitChar 4 cs with
  | some (ds, rest) => pciSepThen pciG2 ds rest
  | none => none

/-- `PCI_PATTERN.finditer`: leftmost non-overlapping greedy matches. -/
def pciFindAux : Nat → Option Char → List Char → List (List Char)
  | 0, _, _ => []
  | _, _, [] => []
  | fuel + 1, prev, c :: cs =>
    if wordBoundaryBefore prev then
      match pciMatchAt (c :: cs) with
      | some (m, rest) => m :: pciFindAux fuel (some (m.getLastD c)) rest
      | none => pciFindAux fuel (some c) cs
    else pciFindAux fuel (some c) cs

/-- `PCI_PATTERN.finditer` over a text. -/
def pciFindIter (cs : List Char) : List (List Char) :=
  pciFindAux cs.length none cs

/-- Lower-case hex character class `[a-f0-9]` of the restore pattern. -/
def isLowerHex (c : Char) : Bool := isDigitChar c || ('a' ≤ c && c ≤ 'f')

/-- `re.compile(re.escape(pfx) + r"[a-f0-9]\x7b12\x7d").finditer`: leftmost
non-overlapping matches of the token shape. -/
def tokenFindAux : Nat → List Char → List Char → List (List Char)
  | 0, _, _ => []
  | _, _, [] => []
  | fuel + 1, pfx, c :: cs =>
    match stripChars pfx (c :: cs) with
    | some r1 =>
      match takeExact isLowerHex 12 r1 with
      | some (h, r2) => (pfx ++ h) :: tokenFindAux fuel pfx r2
      | none => tokenFindAux fuel pfx cs
    | none => tokenFindAux fuel pfx cs

/-- Token-shape `finditer` over a text. -/
def tokenFindIter (pfx cs : List Char) : List (List Char) :=
  tokenFindAux cs.length pfx cs

/-! ## The tokenizer itself (`callback_exploration_sensitive_data.py`) -/

/-- The source's `NPI_TOKEN_PREFIX` constant. -/
def npiTokenTag : String := "NPI_TOKEN_"

/-- The source's `PCI_TOKEN_PREFIX` constant. -/
def pciTokenTag : String := "PCI_TOKEN_"

/-- `_make_hash(value, pfx)`: tag plus first 12 hex digits of the
SHA-256 of the value. -/
def make_hash (value pfx : String) : String := pfx ++ (sha256hex value).take 12

/-- One row of the SQLite `mapping` table. -/
structure MappingRow where
  session_id : String
  token : String
  original_value : String
  kind : String
deriving DecidableEq, Repr

/-- Key equality for the `PRIMARY KEY (session_id, token)`. -/
def mappingKeyMatches (r : MappingRow) (sid tok : String) : Bool :=
  r.session_id == sid && r.token == tok

/-- `INSERT OR REPLACE INTO mapping ...` keyed by `(session_id, token)`. -/
def insertOrReplaceMapping (db : List MappingRow) (row : MappingRow) :
    List MappingRow :=
  if db.any (fun r => mappingKeyMatches r row.session_id row.token) then
    db.map (fun r =>
      if mappingKeyMatches r row.session_id row.token then row else r)
  else db ++ [row]

/-- `SELECT original_value FROM mapping WHERE session_id = ? AND token = ?`
followed by `fetchone()`. -/
def lookupMapping (db : List MappingRow) (sid tok : String) : Option String :=
  (db.find? (fun r => mappingKeyMatches r sid tok)).map MappingRow.original_value

/-- The body of the NPI loop of `_detect_and_replace_sensitive`: record the
mapping and replace the first remaining occurrence by the token. -/
def npiReplaceStep (session_id : String)
    (st : List Char × List MappingRow) (m : List Char) :
    List Char × List MappingRow :=
  let orig := String.mk m
  let token := make_hash orig npiTokenTag
  let db' := insertOrReplaceMapping st.2 ⟨session_id, token, orig, "NPI"⟩
  (replaceFirst st.1 m token.data, db')

/-- The body of the PCI loop of `_detect_and_replace_sensitive`: confirm the
separator-stripped digit count lies in 13..19, then record and replace. -/
def pciReplaceStep (session_id : String)
    (st : List Char × List MappingRow) (m : List Char) :
    List Char × List MappingRow :=
  let digitsOnly := m.filter isDigitChar
  if 13 ≤ digitsOnly.length ∧ digitsOnly.length ≤ 19 then
    let orig := String.mk m
    let token := make_hash orig pciTokenTag
    let db' := insertOrReplaceMapping st.2 ⟨session_id, token, orig, "PCI"⟩
    (replaceFirst st.1 m token.data, db')
  else st

/-- `_detect_and_replace_sensitive(text, session_id, conn)`: replace NPI
matches, then PCI matches whose separator-stripped digit count lies in
13..19, each by its token; record each mapping. The SQLite connection is
the explicitly threaded row list. -/
def detect_and_replace_sensitive (text : String) (session_id : String)
    (db : List MappingRow) : String × List MappingRow :=
  if text = "" then (text, db)
  else
    let cs := text.data
    let st1 := (npiFindIter cs).foldl (npiReplaceStep session_id) (cs, db)
    let st2 := (pciFindIter cs).foldl (pciReplaceStep session_id) st1
    (String.mk st2.1, st2.2)

/-- One restore step: look the token up for this session and replace its
first occurrence when found. -/
def restoreStep (session_id : String) (db : List MappingRow)
    (result : List Char) (tok : List Char) : List Char :=
  match lookupMapping db session_id (String.mk tok) with
  | some orig => replaceFirst result tok orig.data
  | none => result

/-- `_restore_sensitive(text, session_id, conn)`: scan the input text for
token-shaped substrings of either tag and replace each resolvable one by
its stored original. -/
def restore_sensitive (text : String) (session_id : String)
    (db : List MappingRow) : String :=
  if text = "" then text
  else
    let cs := text.data
    let r1 := (tokenFindIter npiTokenTag.data cs).foldl (restoreStep session_id db) cs
    let r2 := (tokenFindIter pciTokenTag.data cs).foldl (restoreStep session_id db) r1
    String.mk r2

/-! ## Outbound content model (`google.genai.types`)

Only the fields the sources inspect are modelled. A genai `Part` always has
a `text` attribute (possibly `None`), so the source's
`hasattr(p, "text")` filter keeps every part. -/

/-- A function-call part's payload; the cache key never reads it. -/
structure FunctionCall where
  name : String
deriving DecidableEq, Repr

/-- A function-response part's payload; the cache key never reads it. -/
structure FunctionResponse where
  name : String
deriving DecidableEq, Repr

/-- One content part: text, function call, or function response. -/
structure Part where
  text : Option String := none
  function_call : Option FunctionCall := none
  function_response : Option FunctionResponse := none
deriving DecidableEq, Repr

/-- One content entry of an outbound request or response. -/
structure Content where
  role : Option String := none
  parts : Option (List Part) := none
deriving DecidableEq, Repr

/-- The outbound model request; `contents` may be absent. -/
structure LlmRequest where
  contents : Option (List Content) := none
deriving DecidableEq, Repr

/-- The model response; `content` may be absent. -/
structure LlmResponse where
  content : Option Content := none
deriving DecidableEq, Repr

/-- How Python renders `f"\x7bgetattr(c, 'role', '')\x7d"`: a `None` role
prints as `"None"`. -/
def roleStr (c : Content) : String :=
  match c.role with
  | some r => r
  | none => "None"

/-- `_get_text_from_content(c)`: space-join of every part's text, an absent
text contributing the empty string. -/
def get_text_from_content (c : Content) : String :=
  String.intercalate " " ((c.parts.getD []).map (fun p => p.text.getD ""))

/-! ## `json.dumps` for a list of strings (default options) -/

/-- Four lower-case hex digits of a value below `2^16`. -/
def hex4 (n : Nat) : List Char :=
  [hexChar (n / 4096 % 16), hexChar (n / 256 % 16),
   hexChar (n / 16 % 16), hexChar (n % 16)]

/-- One character of a JSON string under `ensure_ascii=True`. -/
def jsonEscapeChar (c : Char) : List Char :=
  let n := c.toNat
  if c = '"' then ['\\', '"']
  else if c = '\\' then ['\\', '\\']
  else if c = '\n' then ['\\', 'n']
  else if c = '\t' then ['\\', 't']
  else if c = '\r' then ['\\', 'r']
  else if n = 8 then ['\\', 'b']
  else if n = 12 then ['\\', 'f']
  else if n < 32 || n > 126 then
    if n < 65536 then '\\' :: 'u' :: hex4 n
    else
      let m := n - 65536
      '\\' :: 'u' :: hex4 (55296 + m / 1024) ++ '\\' :: 'u' :: hex4 (56320 + m % 1024)
  else [c]

/-- A JSON string literal. -/
def jsonString (s : String) : List Char :=
  '"' :: (s.data.map jsonEscapeChar).flatten ++ ['"']

/-- `json.dumps` of a list of strings with default separators. -/
def jsonDumpsList (xs : List String) : String :=
  String.mk ('[' :: (List.intercalate [',', ' '] (xs.map jsonString)) ++ [']'])

/-! ## The response cache (`callback_plugin_agent_full_demo.py`; the
multi-agent demo repeats the same definitions verbatim) -/

/-- `_make_cache_key(llm_request)`: truncated SHA-256 of the JSON list of
`role:text` strings. -/
def make_cache_key (req : LlmRequest) : String :=
  let parts := (req.contents.getD []).map
    (fun c => roleStr c ++ ":" ++ get_text_from_content c)
  (sha256hex (jsonDumpsList parts)).take 32

/-- `_extract_text_from_response(llm_response)`. -/
def extract_text_from_response (resp : LlmResponse) : String :=
  match resp.content with
  | none => ""
  | some c => get_text_from_content c

/-- `_build_cached_response(text)`: role `model`, a single text part. -/
def build_cached_response (text : String) : LlmResponse :=
  { content := some { role := some "model", parts := some [{ text := some text }] } }

/-- Whether the response holds a function-call part (the `has_fn_call` scan
of `after_model_callback`). -/
def response_has_fn_call (resp : LlmResponse) : Bool :=
  match resp.content with
  | some c => (c.parts.getD []).any (fun p => p.function_call.isSome)
  | none => false

/-- Set a key of a string-keyed dict kept as an association list
(`d[k] = v`). -/
def dictSet (m : List (String × String)) (k v : String) :
    List (String × String) :=
  if m.any (fun p => p.1 == k) then
    m.map (fun p => if p.1 == k then (k, v) else p)
  else m ++ [(k, v)]

/-- `d.pop(k, None)`: the removed value (if any) and the remaining dict. -/
def dictPop (m : List (String × String)) (k : String) :
    Option String × List (String × String) :=
  ((m.find? (fun p => p.1 == k)).map Prod.snd,
   m.filter (fun p => !(p.1 == k)))

/-- `SELECT response_text FROM llm_cache WHERE cache_key = ?` + `fetchone`. -/
def lookupCache (db : List (String × String)) (key : String) : Option String :=
  (db.find? (fun p => p.1 == key)).map Prod.snd

/-- `INSERT OR REPLACE INTO llm_cache (cache_key, response_text)`. -/
def insertOrReplaceCache (db : List (String × String)) (key text : String) :
    List (String × String) :=
  if db.any (fun p => p.1 == key) then
    db.map (fun p => if p.1 == key then (key, text) else p)
  else db ++ [(key, text)]

/-- `CachePlugin.before_model_callback`: remember the key for this session
in the module-level `_cache_key_by_session`, then answer from the cache on
a hit. Returns the optional override and the updated key map. -/
def cache_before_model (db km : List (String × String)) (sid : String)
    (req : LlmRequest) : Option LlmResponse × List (String × String) :=
  let cache_key := make_cache_key req
  let km' := dictSet km sid cache_key
  match lookupCache db cache_key with
  | some text => (some (build_cached_response text), km')
  | none => (none, km')

/-- `CachePlugin.after_model_callback`: pop the remembered key and store the
response text when it is non-empty and carries no function call. Returns
the updated cache and key map. -/
def cache_after_model (db km : List (String × String)) (sid : String)
    (resp : LlmResponse) :
    List (String × String) × List (String × String) :=
  let (ck, km') := dictPop km sid
  match ck with
  | none => (db, km')
  | some cache_key =>
    let text := extract_text_from_response resp
    if text = "" then (db, km')
    else if response_has_fn_call resp then (db, km')
    else (insertOrReplaceCache db cache_key text, km')

/-! ## The invocation pipeline around one model call

The dispatch itself lives in the ADK runner, outside this repository's
sources; it is modelled from the spec. -/

/-- Result of one model stage: the response used, the cache and key map
afterwards, and how often the model collaborator was invoked. -/
structure StageResult where
  response : LlmResponse
  cache : List (String × String)
  keyMap : List (String × String)
  modelCalls : Nat
deriving Repr

/-- Modelled from the spec: the pipeline around one model call (§4.1/§4.3,
the ADK runner is not part of the sources). `before_model` may
short-circuit, in which case the model collaborator is never called and the
stage's remaining hooks are skipped; otherwise the model is called and
`after_model` runs. -/
def runModelStage (model : LlmRequest → LlmResponse)
    (db km : List (String × String)) (sid : String) (req : LlmRequest) :
    StageResult :=
  match cache_before_model db km sid req with
  | (some resp, km') => { response := resp, cache := db, keyMap := km', modelCalls := 0 }
  | (none, km') =>
    let resp := model req
    let (db', km'') := cache_after_model db km' sid resp
    { response := resp, cache := db', keyMap := km'', modelCalls := 1 }

/-- Modelled from the spec: the outbound request the runner builds from a
fresh session's single user turn (§6: ordered content, role plus parts). -/
def user_request (p : String) : LlmRequest :=
  { contents := some [{ role := some "user", parts := some [{ text := some p }] }] }

/-- Modelled from the spec: per-stage hook dispatch (§4.1). All
plugin-scope hooks run first in registration order, then the agent-scope
hook, the agent hook sitting at the end of the list; the first non-null
override stops the stage. Returns the override and how many hook bodies
ran. -/
def run_stage_hooks {α β : Type} (hooks : List (α → Option β)) (x : α) :
    Option β × Nat :=
  match hooks with
  | [] => (none, 0)
  | h :: rest =>
    match h x with
    | some r => (some r, 1)
    | none =>
      let (o, n) := run_stage_hooks rest x
      (o, n + 1)

/-- `FullDemoPlugin.before_model_callback`: logs and returns `None`; the
log side channel is the invoked count of `run_stage_hooks`. -/
def fullDemoPlugin_before_model (_req : LlmRequest) : Option LlmResponse :=
  none

/-- The agent-scope `agent_before_model` callback: prints and returns
`None`. -/
def agent_before_model (_req : LlmRequest) : Option LlmResponse :=
  none

/-! ## Session store and state persistence wrapper
(`Adk_Copilotkit_UI_App/backend/session_persistence_wrapper.py`)

State values are an arbitrary type `V`. An event's `content` is opaque
here: the wrapper only tests its presence (`not event.content`), so it is
an `Option`. `actions` collapses `EventActions(state_delta=...)` into the
optional delta list, since `None` actions, `None` delta and an empty delta
are indistinguishable to the wrapper's `has_delta` test. Timestamps are
dropped: nothing here reads them. -/

/-- A nested state value, enough for the app state the claims mention. -/
inductive Value where
  | str : String → Value
  | obj : List (String × Value) → Value
deriving Repr

/-- An event as the wrapper sees it. -/
structure WEvent (V : Type) where
  invocation_id : String
  author : String
  content : Option String := none
  actions : Option (List (String × V)) := none

/-- The durable store: the append-only event log and the folded state. -/
structure DbStore (V : Type) where
  events : List (WEvent V)
  state : List (String × V)

/-- The in-memory session; `state = none` models a non-dict
`session.state`. -/
structure WSession (V : Type) where
  id : String
  state : Option (List (String × V))

/-- Last-write-wins update of one state key. -/
def stateSet {V : Type} (st : List (String × V)) (k : String) (v : V) :
    List (String × V) :=
  if st.any (fun p => p.1 == k) then
    st.map (fun p => if p.1 == k then (k, v) else p)
  else st ++ [(k, v)]

/-- Fold a delta into a state, last write per key winning. -/
def foldDelta {V : Type} (st delta : List (String × V)) : List (String × V) :=
  delta.foldl (fun s kv => stateSet s kv.1 kv.2) st

/-- Modelled from the spec: `DatabaseSessionService.append_event` (§4.2,
the underlying store is ADK library code, not in the sources): append the
event to the log; a non-empty state-delta is folded into the stored
state. -/
def base_append_event {V : Type} (store : DbStore V) (e : WEvent V) :
    DbStore V :=
  { events := store.events ++ [e],
    state :=
      match e.actions with
      | some d => if d.isEmpty then store.state else foldDelta store.state d
      | none => store.state }

/-- The wrapper's `is_synthetic` test: sentinel invocation id, sentinel
author, no content. -/
def is_synthetic {V : Type} (e : WEvent V) : Bool :=
  e.invocation_id == "state_persist" && e.author == "user" && e.content.isNone

/-- The wrapper's `has_delta` test: a present, non-empty `state_delta`. -/
def has_delta {V : Type} (e : WEvent V) : Bool :=
  match e.actions with
  | some d => !d.isEmpty
  | none => false

/-- Python `k.startswith(pre)`, written over the character list so that it
evaluates definitionally. -/
def pyStartsWith (s pre : String) : Bool := (stripChars pre.data s.data).isSome

/-- `state_to_persist`: the session state with `_ag_ui_`-prefixed keys
filtered out. -/
def state_to_persist {V : Type} (kvs : List (String × V)) :
    List (String × V) :=
  kvs.filter (fun kv => !pyStartsWith kv.1 "_ag_ui_")

/-- The synthetic persistence event the wrapper constructs. -/
def mk_synthetic {V : Type} (delta : List (String × V)) : WEvent V :=
  { invocation_id := "state_persist", author := "user", content := none,
    actions := some delta }

/-- `SessionStatePersistenceWrapper.append_event`. `fail` is the store
error oracle: `fail e = true` makes the underlying append raise. Only the
synthetic append sits in a `try/except` (the error is logged and
swallowed); a failing original append propagates. On success the returned
event is the result of the delegated original append. -/
def wrapper_append_event {V : Type} (fail : WEvent V → Bool)
    (store : DbStore V) (session : WSession V) (event : WEvent V) :
    Except Unit (DbStore V × WEvent V) :=
  if fail event then .error () else
  let store1 := base_append_event store event
  if is_synthetic event then .ok (store1, event)
  else if has_delta event then .ok (store1, event)
  else
    match session.state with
    | none => .ok (store1, event)
    | some kvs =>
      if kvs.isEmpty then .ok (store1, event)
      else
        let toPersist := state_to_persist kvs
        if toPersist.isEmpty then .ok (store1, event)
        else
          let syn := mk_synthetic toPersist
          if fail syn then .ok (store1, event)
          else .ok (base_append_event store1 syn, event)

/-- A store that never raises. -/
def neverFails {V : Type} : WEvent V → Bool := fun _ => false

/-- The events one `append_event` call adds to the log (empty when the
call raises). -/
def appended_events {V : Type} (fail : WEvent V → Bool) (store : DbStore V)
    (session : WSession V) (event : WEvent V) : List (WEvent V) :=
  match wrapper_append_event fail store session event with
  | .ok (store', _) => store'.events.drop store.events.length
  | .error _ => []

/-- The Bool condition under which the wrapper synthesizes a persistence
event: the appended event is not itself synthetic, carries no delta, and
the in-memory state is a mapping with at least one non-`_ag_ui_` key. -/
def synthesis_condition {V : Type} (session : WSession V) (event : WEvent V) :
    Bool :=
  !is_synthetic event && !has_delta event &&
    (match session.state with
     | some kvs => !kvs.isEmpty && !(state_to_persist kvs).isEmpty
     | none => false)

/-- The spec's divergence test (for comparison with the code): the
in-memory state differs from the state just durably recorded. -/
def spec_divergence {V : Type} [DecidableEq V] (store : DbStore V)
    (session : WSession V) (event : WEvent V) : Bool :=
  !(session.state == some (base_append_event store event).state)

/-! ## Wrapper theorems -/

theorem append_one_drop {α : Type} (l : List α) (a : α) :
    (l ++ [a]).drop l.length = [a] :=
  List.drop_left l [a]

theorem append_two_drop {α : Type} (l : List α) (a b : α) :
    ((l ++ [a]) ++ [b]).drop l.length = [a, b] := by
  rw [List.append_assoc]
  exact List.drop_left l [a, b]

theorem base_append_events {V : Type} (store : DbStore V) (e : WEvent V) :
    (base_append_event store e).events = store.events ++ [e] := rfl

/-- On a store that never raises, one wrapped `append_event` succeeds and
returns the delegated original event; the store gains the synthetic
persistence event exactly under `synthesis_condition`. -/
theorem wrapper_ok_spec {V : Type} (store : DbStore V)
    (session : WSession V) (event : WEvent V) :
    wrapper_append_event neverFails store session event =
      .ok (if synthesis_condition session event then
             base_append_event (base_append_event store event)
               (mk_synthetic (state_to_persist (session.state.getD [])))
           else base_append_event store event,
           event) := by
  unfold wrapper_append_event synthesis_condition neverFails
  simp only [Bool.false_eq_true, if_false]
  cases h1 : is_synthetic event with
  | true => simp
  | false =>
    cases h2 : has_delta event with
    | true => simp
    | false =>
      cases h3 : session.state with
      | none => simp
      | some kvs =>
        cases h4 : kvs.isEmpty with
        | true => simp [h4]
        | false =>
          cases h5 : (state_to_persist kvs).isEmpty with
          | true => simp [h4, h5]
          | false => simp [h4, h5]

/-- Full characterization of what one wrapped `append_event` adds to the
log on a store that never raises: always the given event, plus the
synthetic persistence event exactly under `synthesis_condition`. -/
theorem wrapper_appended_spec {V : Type} (store : DbStore V)
    (session : WSession V) (event : WEvent V) :
    appended_events neverFails store session event =
      if synthesis_condition session event then
        [event, mk_synthetic (state_to_persist (session.state.getD []))]
      else [event] := by
  rw [appended_events, wrapper_ok_spec]
  cases h : synthesis_condition session event with
  | true => simp [h, base_append_events, append_two_drop]
  | false => simp [h, base_append_events, append_one_drop]

/-! ### C2: when the wrapper synthesizes a persistence event -/

/-- C2 counterexample input: an empty log whose folded state equals the
in-memory state. -/
def c2Store : DbStore String := { events := [], state := [("deal", "x")] }

/-- C2 counterexample session: in-memory state identical to the stored
state. -/
def c2Session : WSession String := { id := "s", state := some [("deal", "x")] }

/-- C2 counterexample event: an ordinary model event with no state-delta. -/
def c2Event : WEvent String :=
  { invocation_id := "inv1", author := "model", content := some "hi",
    actions := none }

/-- **C2, counterexample.** The wrapper performs no comparison between the
in-memory state and the durably recorded state: here the two are equal
(`spec_divergence` is false) and the event carries no delta, yet a
synthetic persistence event is appended — refuting "appends a synthetic
event exactly when they diverge and the just-written event carried no
state-delta". -/
theorem C2_counterexample :
    spec_divergence c2Store c2Session c2Event = false ∧
    has_delta c2Event = false ∧
    appended_events neverFails c2Store c2Session c2Event =
      [c2Event, mk_synthetic [("deal", "x")]] :=
  ⟨rfl, rfl, rfl⟩

/-- **C2, amended.** After delegating to the underlying store, the wrapper
appends a synthetic event exactly when the given event is not itself
synthetic, carried no state-delta, and the in-memory state is a mapping
with at least one non-`_ag_ui_` key (no divergence comparison is made);
the synthetic event carries invocation id `state_persist`, author `user`,
empty content, and a state-delta equal to the current state with
`_ag_ui_`-prefixed keys removed. -/
theorem C2_synthesis_rule {V : Type} (store : DbStore V)
    (session : WSession V) (event : WEvent V) :
    appended_events neverFails store session event =
      (if synthesis_condition session event then
        [event, mk_synthetic (state_to_persist (session.state.getD []))]
      else [event]) ∧
    (mk_synthetic (state_to_persist (session.state.getD []))
      : WEvent V).invocation_id = "state_persist" ∧
    (mk_synthetic (state_to_persist (session.state.getD []))
      : WEvent V).author = "user" ∧
    (mk_synthetic (state_to_persist (session.state.getD []))
      : WEvent V).content = none :=
  ⟨wrapper_appended_spec store session event, rfl, rfl, rfl⟩

/-! ### C7: no internal-protocol keys in synthetic deltas -/

/-- **C7.** Every synthetic persistence event the wrapper itself appends
(the second event added by one call) carries a state-delta free of
`_ag_ui_`-prefixed keys. -/
theorem C7_synthetic_delta_excludes_internal_keys {V : Type}
    (store : DbStore V) (session : WSession V) (event syn : WEvent V)
    (h : appended_events neverFails store session event = [event, syn]) :
    (syn.actions.getD []).all (fun kv => !pyStartsWith kv.1 "_ag_ui_") = true := by
  have hc := wrapper_appended_spec store session event
  rw [h] at hc
  cases hcond : synthesis_condition session event with
  | false => rw [hcond] at hc; simp at hc
  | true =>
    rw [hcond] at hc
    simp only [if_true] at hc
    have hsyn : syn = mk_synthetic (state_to_persist (session.state.getD [])) := by
      have := List.cons.inj hc
      simpa using this.2
    subst hsyn
    simp only [mk_synthetic, Option.getD_some]
    rw [List.all_eq_true]
    intro kv hkv
    simp only [state_to_persist, List.mem_filter] at hkv
    exact hkv.2

/-- C7 witness session: one internal `_ag_ui_` key plus the app key
`deal.stage = "Proposal"`. -/
def c7Session : WSession Value :=
  { id := "s7",
    state := some
      [("_ag_ui_thread", Value.str "t1"),
       ("deal", Value.obj [("stage", Value.str "Proposal")])] }

/-- C7 witness store and event. -/
def c7Store : DbStore Value := { events := [], state := [] }

/-- C7 witness event: an ordinary model event with no delta. -/
def c7Event : WEvent Value :=
  { invocation_id := "inv7", author := "model", content := some "ok",
    actions := none }

/-- The synthetic event the wrapper produces for the C7 witness session:
only the `deal` key survives the filter. -/
def c7Synthetic : WEvent Value :=
  mk_synthetic [("deal", Value.obj [("stage", Value.str "Proposal")])]

/-- **C7, witness.** On the concrete deal session the wrapper writes
exactly the original event plus a synthetic one whose delta holds only the
`deal` key; the internal key is absent. -/
theorem C7_witness :
    appended_events neverFails c7Store c7Session c7Event = [c7Event, c7Synthetic] ∧
    (c7Synthetic.actions.getD []).all
      (fun kv => !pyStartsWith kv.1 "_ag_ui_") = true ∧
    c7Synthetic.actions =
      some [("deal", Value.obj [("stage", Value.str "Proposal")])] :=
  ⟨rfl, C7_synthetic_delta_excludes_internal_keys c7Store c7Session c7Event
    c7Synthetic rfl, rfl⟩

/-! ### C8: a failing synthetic append is swallowed -/

/-- **C8.** When the underlying store accepts the original event but raises
on the wrapper's synthetic persistence event, the error is swallowed:
`append_event` still succeeds and returns the result of appending the
original event, the store holding only that event's append. -/
theorem C8_synthetic_failure_swallowed {V : Type} (fail : WEvent V → Bool)
    (store : DbStore V) (session : WSession V) (event : WEvent V)
    (h1 : fail event = false)
    (h2 : fail (mk_synthetic (state_to_persist (session.state.getD []))) = true) :
    wrapper_append_event fail store session event =
      .ok (base_append_event store event, event) := by
  unfold wrapper_append_event
  rw [h1]
  simp only [Bool.false_eq_true, if_false]
  cases h3 : is_synthetic event with
  | true => simp
  | false =>
    cases h4 : has_delta event with
    | true => simp
    | false =>
      cases h5 : session.state with
      | none => simp
      | some kvs =>
        cases h6 : kvs.isEmpty with
        | true => simp [h6]
        | false =>
          cases h7 : (state_to_persist kvs).isEmpty with
          | true => simp [h6, h7]
          | false =>
            have h2' : fail (mk_synthetic (state_to_persist kvs)) = true := by
              rw [h5] at h2; simpa using h2
            simp [h6, h7, h2']

/-- C8 witness oracle: the store raises exactly on synthetic-shaped
events. -/
def c8Fail : WEvent String → Bool := is_synthetic

/-- C8 witness session with a persistable app key. -/
def c8Session : WSession String := { id := "s8", state := some [("deal", "x")] }

/-- C8 witness store and event. -/
def c8Store : DbStore String := { events := [], state := [] }

/-- C8 witness event: an ordinary model event with no delta. -/
def c8Event : WEvent String :=
  { invocation_id := "inv8", author := "model", content := some "ok",
    actions := none }

/-- **C8, witness.** With a store that raises exactly on synthetic events,
the wrapped append still returns the original event's result and the log
holds exactly the original event. -/
theorem C8_witness :
    c8Fail c8Event = false ∧
    c8Fail (mk_synthetic (state_to_persist (c8Session.state.getD []))) = true ∧
    wrapper_append_event c8Fail c8Store c8Session c8Event =
      .ok (base_append_event c8Store c8Event, c8Event) ∧
    (base_append_event c8Store c8Event).events = [c8Event] :=
  ⟨rfl, rfl,
   C8_synthetic_failure_swallowed c8Fail c8Store c8Session c8Event rfl rfl,
   rfl⟩

/-! ### C10: no synthetic event for empty / non-dict / internal-only state -/

/-- **C10.** When the given event carries no state-delta and the in-memory
state is absent (not a mapping), empty, or holds only `_ag_ui_`-prefixed
keys, the wrapper appends exactly the one given event and nothing else. -/
theorem C10_no_synthetic_for_trivial_state {V : Type} (store : DbStore V)
    (session : WSession V) (event : WEvent V)
    (hnd : has_delta event = false)
    (hstate : session.state = none ∨ session.state = some [] ∨
      ∃ kvs, session.state = some kvs ∧
        kvs.all (fun kv => pyStartsWith kv.1 "_ag_ui_") = true) :
    wrapper_append_event neverFails store session event =
      .ok (base_append_event store event, event) ∧
    appended_events neverFails store session event = [event] := by
  have hcond : synthesis_condition session event = false := by
    unfold synthesis_condition
    rcases hstate with h | h | ⟨kvs, hkv, hall⟩
    · rw [h]; simp
    · rw [h]; simp
    · rw [hkv]
      have hfil : state_to_persist kvs = [] := by
        unfold state_to_persist
        rw [List.filter_eq_nil_iff]
        intro a ha
        rw [List.all_eq_true] at hall
        simp [hall a ha]
      simp [hnd, hfil]
  constructor
  · rw [wrapper_ok_spec, hcond]
    simp
  · rw [wrapper_appended_spec, hcond]
    simp

/-- C10 witness session: non-empty state holding only internal keys. -/
def c10Session : WSession String :=
  { id := "s10", state := some [("_ag_ui_thread", "t"), ("_ag_ui_run", "r")] }

/-- C10 witness store and event. -/
def c10Store : DbStore String := { events := [], state := [] }

/-- C10 witness event: an ordinary model event with no delta. -/
def c10Event : WEvent String :=
  { invocation_id := "inv10", author := "model", content := some "ok",
    actions := none }

/-- **C10, witness.** On a session whose state has only `_ag_ui_` keys,
exactly the one given event is written. -/
theorem C10_witness :
    has_delta c10Event = false ∧
    appended_events neverFails c10Store c10Session c10Event = [c10Event] :=
  ⟨rfl,
   (C10_no_synthetic_for_trivial_state c10Store c10Session c10Event rfl
     (Or.inr (Or.inr ⟨_, rfl, rfl⟩))).2⟩

/-! ### C1: tokenizer round trip on the demo text -/

/-- The demo message of the sensitive-data script. -/
def demo_text : String :=
  "My NPI is 1234567890 and my card is 4111 1111 1111 1111."

/-- **C1.** Sanitizing the demo text and then restoring the result in the
same session reproduces the original exactly, and neither the literal
`1234567890` nor the literal `4111 1111 1111 1111` occurs anywhere in the
intermediate sanitized text. -/
theorem C1_round_trip :
    restore_sensitive
      (detect_and_replace_sensitive demo_text "session_1" []).1 "session_1"
      (detect_and_replace_sensitive demo_text "session_1" []).2 = demo_text ∧
    containsSubstr (detect_and_replace_sensitive demo_text "session_1" []).1
      "1234567890" = false ∧
    containsSubstr (detect_and_replace_sensitive demo_text "session_1" []).1
      "4111 1111 1111 1111" = false := by
  refine ⟨?_, ?_, ?_⟩ <;> · set_option maxRecDepth 100000 in decide

/-! ### C9: token mappings are session-scoped -/

theorem mem_insertOrReplaceMapping {db : List MappingRow} {row r : MappingRow}
    (h : r ∈ insertOrReplaceMapping db row) : r ∈ db ∨ r = row := by
  unfold insertOrReplaceMapping at h
  split at h
  · rw [List.mem_map] at h
    obtain ⟨r0, hr0, heq⟩ := h
    by_cases hk : mappingKeyMatches r0 row.session_id row.token = true
    · rw [if_pos hk] at heq
      exact Or.inr heq.symm
    · rw [if_neg hk] at heq
      exact Or.inl (heq ▸ hr0)
  · rw [List.mem_append] at h
    rcases h with h | h
    · exact Or.inl h
    · exact Or.inr (by simpa using h)

/-- A fold of mapping-inserting steps only adds rows for the given
session. -/
theorem foldl_sessions
    {f : (List Char × List MappingRow) → List Char → List Char × List MappingRow}
    {sid : String}
    (hf : ∀ st m r, r ∈ (f st m).2 → r ∈ st.2 ∨ r.session_id = sid) :
    ∀ (ms : List (List Char)) (st : List Char × List MappingRow) r,
      r ∈ (ms.foldl f st).2 → r ∈ st.2 ∨ r.session_id = sid := by
  intro ms
  induction ms with
  | nil => intro st r h; exact Or.inl h
  | cons m ms ih =>
    intro st r h
    rcases ih (f st m) r h with h' | h'
    · exact hf st m r h'
    · exact Or.inr h'

theorem npiReplaceStep_sessions (sid : String) :
    ∀ st m r, r ∈ (npiReplaceStep sid st m).2 → r ∈ st.2 ∨ r.session_id = sid := by
  intro st m r h
  rcases mem_insertOrReplaceMapping h with h' | h'
  · exact Or.inl h'
  · exact Or.inr (by rw [h'])

theorem pciReplaceStep_sessions (sid : String) :
    ∀ st m r, r ∈ (pciReplaceStep sid st m).2 → r ∈ st.2 ∨ r.session_id = sid := by
  intro st m r h
  simp only [pciReplaceStep] at h
  split at h
  · rcases mem_insertOrReplaceMapping h with h' | h'
    · exact Or.inl h'
    · exact Or.inr (by rw [h'])
  · exact Or.inl h

/-- Every mapping row the sanitizer writes carries the sanitizing
session's id. -/
theorem detect_sessions (text sid : String) (db : List MappingRow) :
    ∀ r ∈ (detect_and_replace_sensitive text sid db).2,
      r ∈ db ∨ r.session_id = sid := by
  intro r h
  unfold detect_and_replace_sensitive at h
  split at h
  · exact Or.inl h
  · rcases foldl_sessions (pciReplaceStep_sessions sid) _ _ r h with h' | h'
    · exact foldl_sessions (npiReplaceStep_sessions sid) _ _ r h'
    · exact Or.inr h'

/-- A lookup under a session id owning no rows yields nothing. -/
theorem lookupMapping_none {db : List MappingRow} {sidA sidB tok : String}
    (hall : ∀ r ∈ db, r.session_id = sidA) (hne : sidB ≠ sidA) :
    lookupMapping db sidB tok = none := by
  unfold lookupMapping
  rw [List.find?_eq_none.mpr]
  · rfl
  · intro r hr
    unfold mappingKeyMatches
    rw [hall r hr]
    simp [hne.symm]

/-- A restore fold over unresolvable tokens changes nothing. -/
theorem foldl_restoreStep_id (sid : String) (db : List MappingRow)
    (hnone : ∀ tok : String, lookupMapping db sid tok = none) :
    ∀ (toks : List (List Char)) (res : List Char),
      toks.foldl (restoreStep sid db) res = res := by
  intro toks
  induction toks with
  | nil => intro res; rfl
  | cons t ts ih =>
    intro res
    have hstep : restoreStep sid db res t = res := by
      unfold restoreStep
      rw [hnone (String.mk t)]
    rw [List.foldl_cons, hstep, ih res]

theorem string_mk_data (s : String) : String.mk s.data = s := rfl

/-- **C9.** Token mappings are session-scoped: a mapping store produced by
sanitizing any text under session A resolves nothing under a different
session B, so restoring any text under B leaves it unchanged — every
token-shaped substring survives verbatim. -/
theorem C9_session_isolation (textA sidA sidB text : String)
    (hne : sidB ≠ sidA) :
    restore_sensitive text sidB
      (detect_and_replace_sensitive textA sidA []).2 = text := by
  set db := (detect_and_replace_sensitive textA sidA []).2 with hdb
  have hall : ∀ r ∈ db, r.session_id = sidA := by
    intro r hr
    rcases detect_sessions textA sidA [] r hr with h | h
    · simp at h
    · exact h
  have hnone : ∀ tok : String, lookupMapping db sidB tok = none :=
    fun tok => lookupMapping_none hall hne
  unfold restore_sensitive
  split
  · next h => exact h.symm ▸ rfl
  · simp only [foldl_restoreStep_id sidB db hnone]

/-- **C9, witness.** Concretely: the tokens minted for the demo text under
session A are left verbatim when the sanitized text is restored under
session B. -/
theorem C9_witness :
    restore_sensitive
      "My NPI is NPI_TOKEN_c775e7b757ed and my card is PCI_TOKEN_6a7e0e79b018."
      "B" (detect_and_replace_sensitive demo_text "A" []).2 =
      "My NPI is NPI_TOKEN_c775e7b757ed and my card is PCI_TOKEN_6a7e0e79b018." :=
  C9_session_isolation demo_text "A" "B" _ (by decide)

/-! ### C4: what the detection patterns cover -/

/-- Number of digit characters in a character list (what remains after the
`re.sub(r"\D", "", ...)` normalization). -/
def digitCount (cs : List Char) : Nat := (cs.filter isDigitChar).length

theorem digitCount_append (a b : List Char) :
    digitCount (a ++ b) = digitCount a + digitCount b := by
  simp [digitCount, List.filter_append]

theorem orElseO_eq_some {α : Type} {a b : Option α} {x : α} :
    orElseO a b = some x ↔ a = some x ∨ (a = none ∧ b = some x) := by
  cases a <;> simp [orElseO]

theorem takeExact_spec {p : Char → Bool} :
    ∀ {n : Nat} {cs ds rest : List Char}, takeExact p n cs = some (ds, rest) →
      ds.length = n ∧ ∀ c ∈ ds, p c = true := by
  intro n
  induction n with
  | zero =>
    intro cs ds rest h
    simp only [takeExact, Option.some.injEq, Prod.mk.injEq] at h
    obtain ⟨h1, _⟩ := h
    subst h1
    simp
  | succ n ih =>
    intro cs ds rest h
    cases cs with
    | nil => simp [takeExact] at h
    | cons c cs' =>
      simp only [takeExact] at h
      by_cases hp : p c = true
      · rw [if_pos hp] at h
        cases hm : takeExact p n cs' with
        | none => rw [hm] at h; simp at h
        | some pr =>
          obtain ⟨ds', rest'⟩ := pr
          rw [hm] at h
          simp only [Option.some.injEq, Prod.mk.injEq] at h
          obtain ⟨h1, _⟩ := h
          subst h1
          obtain ⟨hl, hall⟩ := ih hm
          refine ⟨by simp [hl], ?_⟩
          intro x hx
          rcases List.mem_cons.mp hx with hx | hx
          · exact hx ▸ hp
          · exact hall x hx
      · rw [if_neg hp] at h; simp at h

/-- A successful `takeExact isDigitChar n` contributes exactly `n`
digits. -/
theorem takeExact_digitCount {n : Nat} {cs ds rest : List Char}
    (h : takeExact isDigitChar n cs = some (ds, rest)) : digitCount ds = n := by
  obtain ⟨hl, hall⟩ := takeExact_spec h
  unfold digitCount
  rw [List.filter_eq_self.mpr hall]
  exact hl

theorem pciTailDigits_count {n : Nat} {acc rest m r : List Char}
    (h : pciTailDigits n acc rest = some (m, r)) :
    digitCount acc ≤ digitCount m := by
  cases hm : takeExact isDigitChar n rest with
  | none => simp [pciTailDigits, hm] at h
  | some pr =>
    obtain ⟨ds, rest'⟩ := pr
    simp only [pciTailDigits, hm] at h
    split at h
    · obtain ⟨h1, h2⟩ : acc ++ ds = m ∧ rest' = r := by simpa using h
      rw [← h1, digitCount_append]
      omega
    · simp at h

theorem sepBranch_some
    {k : List Char → List Char → Option (List Char × List Char)}
    {acc rest : List Char} {x : List Char × List Char}
    (h : sepBranch k acc rest = some x) :
    ∃ c rest', rest = c :: rest' ∧ isSepChar c = true ∧
      k (acc ++ [c]) rest' = some x := by
  cases rest with
  | nil => simp [sepBranch] at h
  | cons c rest' =>
    simp only [sepBranch] at h
    by_cases hc : isSepChar c = true
    · rw [if_pos hc] at h
      exact ⟨c, rest', rfl, hc, h⟩
    · rw [if_neg hc] at h
      simp at h

theorem pciTailChain_count {acc rest m r : List Char}
    (h : pciTailChain acc rest = some (m, r)) :
    digitCount acc ≤ digitCount m := by
  unfold pciTailChain at h
  rw [orElseO_eq_some] at h
  rcases h with h | ⟨_, h⟩
  · exact pciTailDigits_count h
  · rw [orElseO_eq_some] at h
    rcases h with h | ⟨_, h⟩
    · exact pciTailDigits_count h
    · rw [orElseO_eq_some] at h
      rcases h with h | ⟨_, h⟩
      · exact pciTailDigits_count h
      · exact pciTailDigits_count h

theorem pciTail_count {acc rest m r : List Char}
    (h : pciTail acc rest = some (m, r)) : digitCount acc ≤ digitCount m := by
  unfold pciTail at h
  rw [orElseO_eq_some] at h
  rcases h with h | ⟨_, h⟩
  · obtain ⟨c, rest', _, _, hk⟩ := sepBranch_some h
    have := pciTailChain_count hk
    rw [digitCount_append] at this
    omega
  · rw [orElseO_eq_some] at h
    rcases h with h | ⟨_, h⟩
    · exact pciTailChain_count h
    · split at h
      · simp only [Option.some.injEq, Prod.mk.injEq] at h
        obtain ⟨h1, _⟩ := h
        subst h1
        exact le_refl _
      · simp at h

theorem pciSepThen_count
    {k : List Char → List Char → Option (List Char × List Char)} {b : Nat}
    (hk : ∀ acc rest m r, k acc rest = some (m, r) →
      digitCount acc + b ≤ digitCount m) :
    ∀ acc rest m r, pciSepThen k acc rest = some (m, r) →
      digitCount acc + b ≤ digitCount m := by
  intro acc rest m r h
  unfold pciSepThen at h
  rw [orElseO_eq_some] at h
  rcases h with h | ⟨_, h⟩
  · obtain ⟨c, rest', _, _, hk'⟩ := sepBranch_some h
    have := hk (acc ++ [c]) rest' m r hk'
    rw [digitCount_append] at this
    omega
  · exact hk acc rest m r h

theorem pciG4_count {acc rest m r : List Char}
    (h : pciG4 acc rest = some (m, r)) :
    digitCount acc + 4 ≤ digitCount m := by
  unfold pciG4 at h
  cases hm : takeExact isDigitChar 4 rest with
  | none => rw [hm] at h; simp at h
  | some pr =>
    obtain ⟨ds, rest'⟩ := pr
    rw [hm] at h
    have := pciTail_count h
    rw [digitCount_append, takeExact_digitCount hm] at this
    omega

theorem pciG3_count {acc rest m r : List Char}
    (h : pciG3 acc rest = some (m, r)) :
    digitCount acc + 8 ≤ digitCount m := by
  unfold pciG3 at h
  cases hm : takeExact isDigitChar 4 rest with
  | none => rw [hm] at h; simp at h
  | some pr =>
    obtain ⟨ds, rest'⟩ := pr
    rw [hm] at h
    have := pciSepThen_count (fun a r' m' r'' h' => pciG4_count h') _ _ _ _ h
    rw [digitCount_append, takeExact_digitCount hm] at this
    omega

theorem pciG2_count {acc rest m r : List Char}
    (h : pciG2 acc rest = some (m, r)) :
    digitCount acc + 12 ≤ digitCount m := by
  unfold pciG2 at h
  cases hm : takeExact isDigitChar 4 rest with
  | none => rw [hm] at h; simp at h
  | some pr =>
    obtain ⟨ds, rest'⟩ := pr
    rw [hm] at h
    have := pciSepThen_count (fun a r' m' r'' h' => pciG3_count h') _ _ _ _ h
    rw [digitCount_append, takeExact_digitCount hm] at this
    omega

/-- Any text `PCI_PATTERN` can match holds at least 16 digits: the four
mandatory `\d{4}` groups. -/
theorem pciMatchAt_count {cs m r : List Char}
    (h : pciMatchAt cs = some (m, r)) : 16 ≤ digitCount m := by
  unfold pciMatchAt at h
  cases hm : takeExact isDigitChar 4 cs with
  | none => rw [hm] at h; simp at h
  | some pr =>
    obtain ⟨ds, rest⟩ := pr
    rw [hm] at h
    have := pciSepThen_count (fun a r' m' r'' h' => pciG2_count h') _ _ _ _ h
    rw [takeExact_digitCount hm] at this
    omega

theorem pciFindAux_matchAt :
    ∀ (fuel : Nat) (prev : Option Char) (cs m : List Char),
      m ∈ pciFindAux fuel prev cs →
      ∃ cs' r, pciMatchAt cs' = some (m, r) := by
  intro fuel
  induction fuel with
  | zero => intro prev cs m h; simp [pciFindAux] at h
  | succ fuel ih =>
    intro prev cs m h
    cases cs with
    | nil => simp [pciFindAux] at h
    | cons c cs' =>
      simp only [pciFindAux] at h
      split at h
      · cases hm : pciMatchAt (c :: cs') with
        | some pr =>
          obtain ⟨m0, rest⟩ := pr
          rw [hm] at h
          rcases List.mem_cons.mp h with h | h
          · exact ⟨c :: cs', rest, h ▸ hm⟩
          · exact ih _ _ _ h
        | none =>
          rw [hm] at h
          exact ih _ _ _ h
      · exact ih _ _ _ h

/-- The extended demo text for C4: the demo message plus a bare 13-digit
payment numeral. -/
def c4_demo : String :=
  "My NPI is 1234567890 and my card is 4111 1111 1111 1111 and also 4111111111111."

/-- **C4, counterexample.** A bare 13-digit payment numeral lies inside the
claimed 13–19-digit class, yet the sanitizer leaves the text containing it
completely unchanged: the raw literal is forwarded to the model. -/
theorem C4_counterexample :
    digitCount "4111111111111".data = 13 ∧
    detect_and_replace_sensitive "My card is 4111111111111." "s" [] =
      ("My card is 4111111111111.", []) ∧
    containsSubstr "My card is 4111111111111." "4111111111111" = true := by
  refine ⟨?_, ?_, ?_⟩ <;> · set_option maxRecDepth 100000 in decide

/-- **C4, amended.** The payment pattern only matches numerals carrying at
least 16 digits (four mandatory 4-digit blocks, optional single
separators, up to four further digits), so payment numerals of 13–15
digits are never tokenized; on the extended demo text the standalone
10-digit identifier and the grouped 16-digit card are replaced by tokens
(neither literal survives) while the bare 13-digit card survives
verbatim. -/
theorem C4_pattern_coverage :
    (∀ (cs m : List Char), m ∈ pciFindIter cs → 16 ≤ digitCount m) ∧
    (detect_and_replace_sensitive c4_demo "s" []).1 =
      "My NPI is NPI_TOKEN_c775e7b757ed and my card is PCI_TOKEN_6a7e0e79b018 and also 4111111111111." ∧
    containsSubstr (detect_and_replace_sensitive c4_demo "s" []).1
      "1234567890" = false ∧
    containsSubstr (detect_and_replace_sensitive c4_demo "s" []).1
      "4111 1111 1111 1111" = false ∧
    containsSubstr (detect_and_replace_sensitive c4_demo "s" []).1
      "4111111111111" = true := by
  refine ⟨?_, ?_, ?_, ?_, ?_⟩
  · intro cs m h
    obtain ⟨cs', r, hm⟩ := pciFindAux_matchAt _ _ _ _ h
    exact pciMatchAt_count hm
  all_goals · set_option maxRecDepth 100000 in decide

/-- **C4, witness.** The grouped demo card is a payment match and the
general bound instantiates on it: it carries at least 16 digits. -/
theorem C4_witness :
    "4111 1111 1111 1111".data ∈ pciFindIter demo_text.data ∧
    16 ≤ digitCount "4111 1111 1111 1111".data :=
  ⟨by set_option maxRecDepth 100000 in decide,
   C4_pattern_coverage.1 demo_text.data "4111 1111 1111 1111".data
     (by set_option maxRecDepth 100000 in decide)⟩

/-! ### C3: the cache key and function-call parts -/

/-- The ordered (role, concatenated text) pairs the key is built from. -/
def key_pairs (req : LlmRequest) : List (String × String) :=
  (req.contents.getD []).map (fun c => (roleStr c, get_text_from_content c))

/-- The visible plain text of a request: the concatenation of its text
parts. -/
def visible_text (req : LlmRequest) : String :=
  String.join ((req.contents.getD []).map
    (fun c => String.join ((c.parts.getD []).filterMap Part.text)))

/-- Whether any part of the request is a function call or response. -/
def has_function_part (req : LlmRequest) : Bool :=
  (req.contents.getD []).any (fun c =>
    (c.parts.getD []).any (fun p =>
      p.function_call.isSome || p.function_response.isSome))

/-- Whether every part of the request is a pure text part. -/
def is_plain_text_only (req : LlmRequest) : Bool :=
  (req.contents.getD []).all (fun c =>
    (c.parts.getD []).all (fun p =>
      p.function_call.isNone && p.function_response.isNone))

/-- C3 request A: a text part plus a function-call part. -/
def c3ReqA : LlmRequest :=
  ⟨some [⟨some "user", some [⟨some "hi", none, none⟩, ⟨none, some ⟨"f"⟩, none⟩]⟩]⟩

/-- C3 request B: plain text parts only, same visible text as request A. -/
def c3ReqB : LlmRequest :=
  ⟨some [⟨some "user", some [⟨some "hi", none, none⟩, ⟨some "", none, none⟩]⟩]⟩

/-- **C3, counterexample.** A function-call part contributes no placeholder
to the hashed sequence, only its absent text (the empty string): request A
(text `hi` plus a function call) and the plain-text-only request B with
identical visible text produce the same cache key. -/
theorem C3_counterexample :
    has_function_part c3ReqA = true ∧
    is_plain_text_only c3ReqB = true ∧
    visible_text c3ReqA = visible_text c3ReqB ∧
    make_cache_key c3ReqA = make_cache_key c3ReqB := by
  refine ⟨rfl, rfl, rfl, ?_⟩
  decide

/-- The key is a function of the (role, concatenated text) pairs alone. -/
theorem make_cache_key_eq_pairs (req : LlmRequest) :
    make_cache_key req =
      (sha256hex (jsonDumpsList ((key_pairs req).map
        (fun q => q.1 ++ ":" ++ q.2)))).take 32 := by
  unfold make_cache_key key_pairs
  rw [List.map_map]
  rfl

/-- **C3, amended.** The cache key is a stable hash of the ordered
(role, space-joined part texts) list — identical pairs give identical keys
— but a function-call/response part contributes only its absent text (the
empty string), no placeholder, so a request containing such parts can
produce the same key as a plain-text-only request with identical visible
text. -/
theorem C3_key_determinism :
    (∀ r1 r2 : LlmRequest, key_pairs r1 = key_pairs r2 →
      make_cache_key r1 = make_cache_key r2) ∧
    make_cache_key c3ReqA = make_cache_key c3ReqB := by
  constructor
  · intro r1 r2 h
    rw [make_cache_key_eq_pairs, make_cache_key_eq_pairs, h]
  · decide

/-- C3 witness request C: one plain text part. -/
def c3ReqC : LlmRequest :=
  ⟨some [⟨some "user", some [⟨some "a", none, none⟩]⟩]⟩

/-- C3 witness request D: structurally different (its part also carries a
function call) but with the same (role, text) pairs. -/
def c3ReqD : LlmRequest :=
  ⟨some [⟨some "user", some [⟨some "a", some ⟨"g"⟩, none⟩]⟩]⟩

/-- **C3, witness.** Two structurally different requests with identical
(role, text) pairs receive the same key. -/
theorem C3_witness :
    make_cache_key c3ReqC = make_cache_key c3ReqD ∧ c3ReqC ≠ c3ReqD :=
  ⟨C3_key_determinism.1 c3ReqC c3ReqD rfl, by decide⟩

/-! ### C5: the cache short-circuit across two sessions -/

/-- C5 counterexample model: never returns a function call, but its text is
empty. -/
def c5EmptyModel : LlmRequest → LlmResponse :=
  fun _ => ⟨some ⟨some "model", some [⟨some "", none, none⟩]⟩⟩

/-- The demo's prompt. -/
def c5Prompt : String := "What time is it right now?"

/-- **C5, counterexample.** With a model collaborator that never returns a
function-call part but answers with empty text, nothing is cached: the
second session misses and the model is invoked twice — refuting the claim
for such collaborators. -/
theorem C5_counterexample :
    (∀ req, response_has_fn_call (c5EmptyModel req) = false) ∧
    (runModelStage c5EmptyModel [] [] "s1" (user_request c5Prompt)).modelCalls +
      (runModelStage c5EmptyModel
        (runModelStage c5EmptyModel [] [] "s1" (user_request c5Prompt)).cache
        (runModelStage c5EmptyModel [] [] "s1" (user_request c5Prompt)).keyMap
        "s2" (user_request c5Prompt)).modelCalls = 2 ∧
    (cache_before_model
        (runModelStage c5EmptyModel [] [] "s1" (user_request c5Prompt)).cache
        (runModelStage c5EmptyModel [] [] "s1" (user_request c5Prompt)).keyMap
        "s2" (user_request c5Prompt)).1 = none := by
  refine ⟨fun _ => rfl, ?_, ?_⟩ <;> · set_option maxRecDepth 100000 in decide

/-- **C5, amended.** Starting from an empty cache, for any model
collaborator that returns no function-call part and non-empty visible
text, the first session's turn invokes the model once and caches its text;
the identical prompt in a second session short-circuits in `before_model`
with the synthesized response (role `model`, one text part equal to the
cached text) and the model is not invoked again: exactly one invocation
across both sessions. -/
theorem C5_cache_short_circuit (model : LlmRequest → LlmResponse)
    (p s1 s2 : String)
    (hfn : response_has_fn_call (model (user_request p)) = false)
    (htext : extract_text_from_response (model (user_request p)) ≠ "") :
    (runModelStage model [] [] s1 (user_request p)).modelCalls = 1 ∧
    (runModelStage model
      (runModelStage model [] [] s1 (user_request p)).cache
      (runModelStage model [] [] s1 (user_request p)).keyMap
      s2 (user_request p)).response =
        build_cached_response
          (extract_text_from_response (model (user_request p))) ∧
    (runModelStage model
      (runModelStage model [] [] s1 (user_request p)).cache
      (runModelStage model [] [] s1 (user_request p)).keyMap
      s2 (user_request p)).modelCalls = 0 := by
  obtain ⟨key, hkey⟩ : ∃ k, make_cache_key (user_request p) = k := ⟨_, rfl⟩
  obtain ⟨text, htxt⟩ :
      ∃ t, extract_text_from_response (model (user_request p)) = t := ⟨_, rfl⟩
  rw [htxt] at htext
  have h1 : runModelStage model [] [] s1 (user_request p) =
      { response := model (user_request p), cache := [(key, text)],
        keyMap := [], modelCalls := 1 } := by
    simp [runModelStage, cache_before_model, cache_after_model, lookupCache,
      dictSet, dictPop, insertOrReplaceCache, hkey, htxt, htext, hfn]
  have h2 : runModelStage model [(key, text)] [] s2 (user_request p) =
      { response := build_cached_response text, cache := [(key, text)],
        keyMap := [(s2, key)], modelCalls := 0 } := by
    simp [runModelStage, cache_before_model, lookupCache, dictSet, hkey]
  simp [h1, h2, htxt]

/-- C5 witness model: a fixed plain-text answer. -/
def c5GoodModel : LlmRequest → LlmResponse :=
  fun _ => ⟨some ⟨some "model", some [⟨some "It is 10:00.", none, none⟩]⟩⟩

/-- **C5, witness.** With the fixed plain-text model, the first session
misses and calls the model, the second session is served the cached
response, one model call in total. -/
theorem C5_witness :
    (runModelStage c5GoodModel [] [] "s1" (user_request c5Prompt)).modelCalls = 1 ∧
    (runModelStage c5GoodModel
      (runModelStage c5GoodModel [] [] "s1" (user_request c5Prompt)).cache
      (runModelStage c5GoodModel [] [] "s1" (user_request c5Prompt)).keyMap
      "s2" (user_request c5Prompt)).response =
        build_cached_response "It is 10:00." ∧
    (runModelStage c5GoodModel
      (runModelStage c5GoodModel [] [] "s1" (user_request c5Prompt)).cache
      (runModelStage c5GoodModel [] [] "s1" (user_request c5Prompt)).keyMap
      "s2" (user_request c5Prompt)).modelCalls = 0 :=
  C5_cache_short_circuit c5GoodModel c5Prompt "s1" "s2" rfl (by decide)

/-! ### C6: plugin hooks run before the agent hook -/

/-- **C6.** In the `before_model` stage the plugin hooks run first, in
registration order (`FullDemoPlugin`, then `CachePlugin`), the agent-scope
hook last; when the cache plugin returns a non-null override the dispatch
stops after the second hook, so the agent-scope `before_model` body (third
in the list) is never invoked and the override is the plugin's. -/
theorem C6_plugin_hooks_run_first (db km : List (String × String))
    (sid : String) (req : LlmRequest)
    (hhit : (cache_before_model db km sid req).1.isSome = true) :
    run_stage_hooks
      [fullDemoPlugin_before_model,
       fun r => (cache_before_model db km sid r).1,
       agent_before_model] req
      = ((cache_before_model db km sid req).1, 2) := by
  obtain ⟨resp, hr⟩ := Option.isSome_iff_exists.mp hhit
  simp [run_stage_hooks, fullDemoPlugin_before_model, hr]

/-- C6 witness request. -/
def c6Req : LlmRequest := user_request "hi"

/-- C6 witness cache: the witness request's key is present. -/
def c6Db : List (String × String) := [(make_cache_key c6Req, "cached")]

/-- **C6, witness.** On the concrete pre-populated cache the dispatch
returns the cache plugin's override after two hook bodies; the agent hook
body never runs. -/
theorem C6_witness :
    run_stage_hooks
      [fullDemoPlugin_before_model,
       fun r => (cache_before_model c6Db [] "s" r).1,
       agent_before_model] c6Req
      = (some (build_cached_response "cached"), 2) := by
  rw [C6_plugin_hooks_run_first c6Db [] "s" c6Req
    (by set_option maxRecDepth 100000 in decide)]
  set_option maxRecDepth 100000 in decide

end Agents
